import Mathlib

/-
Verification of the funds-transfer engine, account directory and presence
registry of the bank-app server, as a shallow embedding in Lean 4.

Conventions of the embedding:
* Monetary values (`Decimal` columns, decimal.js values) are rationals; the
  decimal.js value space is modelled by `Dec`, which also carries the
  non-finite values NaN and plus or minus Infinity that decimal.js allows.
* The database is a pure `Store` value (lists of accounts and transactions);
  Prisma reads become list lookups and Prisma writes become pure updates.
  A Prisma call that throws is modelled with `Except`.
* The controller pipeline additionally returns the list of store operations
  it performed, in order, so that statements about which store accesses
  happen before a rejection can be made.
-/

namespace Bank

/-- Value space of decimal.js: finite rationals plus NaN and the two
infinities, all of which the decimal.js constructor can produce. -/
inductive Dec where
  | nan
  | posInf
  | negInf
  | fin (q : ℚ)
deriving DecidableEq, Repr

/-- Model of decimal.js `isNegative()`: the sign of NaN is NaN, so NaN is
not negative; negative infinity is negative. -/
def Dec.isNegative : Dec → Bool
  | .negInf => true
  | .fin q => decide (q < 0)
  | _ => false

/-- Model of decimal.js `isZero()`. -/
def Dec.isZero : Dec → Bool
  | .fin q => decide (q = 0)
  | _ => false

/-- Model of decimal.js `lessThan`: any comparison involving NaN is false. -/
def Dec.lessThan : Dec → Dec → Bool
  | .nan, _ => false
  | _, .nan => false
  | .negInf, .negInf => false
  | .negInf, _ => true
  | _, .negInf => false
  | .posInf, _ => false
  | .fin _, .posInf => true
  | .fin a, .fin b => decide (a < b)

/-- Numeric value of a list of decimal digit characters, most significant
first. -/
def digitsVal (cs : List Char) : ℕ :=
  cs.foldl (fun acc c => 10 * acc + (c.toNat - '0'.toNat)) 0

/-- True when every character is a decimal digit. -/
def allDigits (cs : List Char) : Bool :=
  cs.all Char.isDigit

/-- Mantissa grammar of the decimal.js decimal regex: digits with an
optional dot, in the shapes d+, d+.d* or .d+. -/
def parseMantissa (cs : List Char) : Option ℚ :=
  match cs.splitOn '.' with
  | [intPart] =>
      if intPart ≠ [] ∧ allDigits intPart then some (digitsVal intPart : ℚ)
      else none
  | [intPart, fracPart] =>
      if allDigits intPart ∧ allDigits fracPart ∧ (intPart ≠ [] ∨ fracPart ≠ []) then
        some ((digitsVal intPart : ℚ) +
          (digitsVal fracPart : ℚ) / (10 : ℚ) ^ fracPart.length)
      else none
  | _ => none

/-- Exponent grammar of the decimal.js decimal regex: an optional sign
followed by one or more digits. -/
def parseExpPart (cs : List Char) : Option ℤ :=
  match cs with
  | '+' :: rest =>
      if rest ≠ [] ∧ allDigits rest then some (digitsVal rest : ℤ) else none
  | '-' :: rest =>
      if rest ≠ [] ∧ allDigits rest then some (-(digitsVal rest : ℤ)) else none
  | rest =>
      if rest ≠ [] ∧ allDigits rest then some (digitsVal rest : ℤ) else none

/-- Unsigned numeric string: mantissa with an optional exponent separated
by the letter e (already lowercased by the caller). -/
def parseUnsigned (cs : List Char) : Option ℚ :=
  match cs.splitOn 'e' with
  | [m] => parseMantissa m
  | [m, e] =>
      match parseMantissa m, parseExpPart e with
      | some q, some ex => some (q * (10 : ℚ) ^ ex)
      | _, _ => none
  | _ => none

/-- Model of the decimal.js constructor on a string: strips one leading
sign, accepts the exact literals NaN and Infinity, and otherwise the
decimal grammar (digits, optional dot, optional exponent with e or E).
Returns none when decimal.js would throw. Exotic decimal.js inputs
(hexadecimal, binary, octal, digit separators) are outside this model. -/
def parseDec (str : String) : Option Dec :=
  let cs := str.toList
  let signRest : Bool × List Char :=
    match cs with
    | '-' :: r => (true, r)
    | '+' :: r => (false, r)
    | r => (false, r)
  let neg := signRest.1
  let rest := signRest.2
  if rest = "NaN".toList then some Dec.nan
  else if rest = "Infinity".toList then
    some (if neg then Dec.negInf else Dec.posInf)
  else
    match parseUnsigned (rest.map (fun c => if c = 'E' then 'e' else c)) with
    | some q => some (Dec.fin (if neg then -q else q))
    | none => none

/-- Account record as stored by Prisma (model Account): id, owning user,
unique account number, decimal balance, default flag. -/
structure Account where
  id : String
  userId : String
  accountNumber : String
  balance : ℚ
  defaultAccount : Bool
deriving DecidableEq, Repr

/-- Transaction record as stored by Prisma (model Transaction). -/
structure Transaction where
  id : String
  transactionReference : String
  fromAccountId : String
  toAccountId : String
  amount : ℚ
  description : Option String
deriving DecidableEq, Repr

/-- The database state: the accounts table and the transactions table. -/
structure Store where
  accounts : List Account
  transactions : List Transaction
deriving DecidableEq, Repr

/-- Model of `prisma.account.findFirst(\x7b where: \x7b id, userId \x7d \x7d)`
from the transaction repository: the account with the given id owned by the
given user. -/
def findAccountByIdAndUser (s : Store) (accountId userId : String) : Option Account :=
  s.accounts.find? (fun a => a.id == accountId && a.userId == userId)

/-- Model of `prisma.account.findUnique(\x7b where: \x7b accountNumber \x7d \x7d)`. -/
def findAccountByNumber (s : Store) (accountNumber : String) : Option Account :=
  s.accounts.find? (fun a => a.accountNumber == accountNumber)

/-- Lookup of an account by primary key. -/
def getAccount (s : Store) (accountId : String) : Option Account :=
  s.accounts.find? (fun a => a.id == accountId)

/-- Result of applying the debit and the credit of a transfer: decrement the
balance of the source account, then increment the balance of the destination
account, exactly as the two `prisma.account.update` calls do. -/
def applyTransfer (accounts : List Account) (fromAccountId toAccountId : String)
    (q : ℚ) : List Account :=
  (accounts.map (fun a =>
      if a.id == fromAccountId then { a with balance := a.balance - q } else a)).map
    (fun a =>
      if a.id == toAccountId then { a with balance := a.balance + q } else a)

/-- Model of the repository `transferFunds` (transactionRepository): inside
one `prisma.$transaction`, unconditionally decrement the source balance,
unconditionally increment the destination balance, and insert the
transaction record. The whole unit fails (and leaves the store unchanged)
when either account id does not exist or the amount is not a finite decimal
the store can apply; there is no balance guard of any kind at the write. -/
def transferFundsRepo (s : Store) (fromAccountId toAccountId : String)
    (amount : Dec) (txId transactionReference : String)
    (description : Option String) : Except Unit (Store × Transaction) :=
  match (s.accounts.find? (fun a => a.id == fromAccountId)),
      (s.accounts.find? (fun a => a.id == toAccountId)), amount with
  | some _, some _, Dec.fin q =>
      let t : Transaction :=
        ⟨txId, transactionReference, fromAccountId, toAccountId, q, description⟩
      Except.ok
        ({ accounts := applyTransfer s.accounts fromAccountId toAccountId q,
           transactions := s.transactions ++ [t] }, t)
  | _, _, _ => Except.error ()

/-- Body of a POST /api/v1/transactions request. -/
structure TransferRequest where
  accountId : String
  recipientAccountNumber : String
  amount : Option String
  description : Option String
deriving DecidableEq, Repr

/-- Outcome of the transfer controller, one constructor per distinct
response of the source. -/
inductive TOutcome where
  | authRequired
  | missingFields
  | sourceAccountNotFound
  | sameAccountTransfer
  | invalidAmountFormat
  | nonPositiveAmount
  | insufficientFunds
  | recipientNotFound
  | internalError
  | created (t : Transaction)
deriving DecidableEq, Repr

/-- A store access performed by the controller, recorded in order. -/
inductive StoreOp where
  | readAccountByIdAndUser (accountId userId : String)
  | readAccountByNumber (accountNumber : String)
  | write
deriving DecidableEq, Repr

/-- Model of the controller `transferFunds` (transactionsController) for an
authenticated user: required-fields check, source ownership lookup,
same-account check, decimal.js amount validation, a second source lookup,
the balance check, the recipient lookup, and finally the repository
transfer. The second component is the resulting store and the third the
list of store operations performed. -/
def transferFundsAuthed (s : Store) (userId : String) (req : TransferRequest)
    (txId transactionReference : String) : TOutcome × Store × List StoreOp :=
  if req.accountId = "" ∨ req.recipientAccountNumber = "" ∨ req.amount = none then
    (TOutcome.missingFields, s, [])
  else
    match findAccountByIdAndUser s req.accountId userId with
    | none =>
        (TOutcome.sourceAccountNotFound, s,
          [StoreOp.readAccountByIdAndUser req.accountId userId])
    | some validateUserAccount =>
        if validateUserAccount.accountNumber = req.recipientAccountNumber then
          (TOutcome.sameAccountTransfer, s,
            [StoreOp.readAccountByIdAndUser req.accountId userId])
        else
          match parseDec (req.amount.getD "") with
          | none =>
              (TOutcome.invalidAmountFormat, s,
                [StoreOp.readAccountByIdAndUser req.accountId userId])
          | some amountDecimal =>
              if amountDecimal.isNegative || amountDecimal.isZero then
                (TOutcome.nonPositiveAmount, s,
                  [StoreOp.readAccountByIdAndUser req.accountId userId])
              else
                match findAccountByIdAndUser s req.accountId userId with
                | none =>
                    (TOutcome.sourceAccountNotFound, s,
                      [StoreOp.readAccountByIdAndUser req.accountId userId,
                       StoreOp.readAccountByIdAndUser req.accountId userId])
                | some fromAccount =>
                    if (Dec.fin fromAccount.balance).lessThan amountDecimal then
                      (TOutcome.insufficientFunds, s,
                        [StoreOp.readAccountByIdAndUser req.accountId userId,
                         StoreOp.readAccountByIdAndUser req.accountId userId])
                    else
                      match findAccountByNumber s req.recipientAccountNumber with
                      | none =>
                          (TOutcome.recipientNotFound, s,
                            [StoreOp.readAccountByIdAndUser req.accountId userId,
                             StoreOp.readAccountByIdAndUser req.accountId userId,
                             StoreOp.readAccountByNumber req.recipientAccountNumber])
                      | some toAccount =>
                          match transferFundsRepo s fromAccount.id toAccount.id
                              amountDecimal txId transactionReference req.description with
                          | Except.error _ =>
                              (TOutcome.internalError, s,
                                [StoreOp.readAccountByIdAndUser req.accountId userId,
                                 StoreOp.readAccountByIdAndUser req.accountId userId,
                                 StoreOp.readAccountByNumber req.recipientAccountNumber])
                          | Except.ok (s2, t) =>
                              (TOutcome.created t, s2,
                                [StoreOp.readAccountByIdAndUser req.accountId userId,
                                 StoreOp.readAccountByIdAndUser req.accountId userId,
                                 StoreOp.readAccountByNumber req.recipientAccountNumber,
                                 StoreOp.write])

/-- The controller including the authentication guard. -/
def transferFundsController (s : Store) (user : Option String)
    (req : TransferRequest) (txId transactionReference : String) :
    TOutcome × Store × List StoreOp :=
  match user with
  | none => (TOutcome.authRequired, s, [])
  | some userId => transferFundsAuthed s userId req txId transactionReference

/-- Model of the repository `setAccountAsDefault` (accountRepository): verify
that the account exists and belongs to the user, then inside one
`prisma.$transaction` unset the default flag on every account of the user
that currently has it, and set it on the requested account. Returns none
(mapped to AccountNotFound by the controller) when the ownership check
fails. -/
def setAccountAsDefault (s : Store) (accountId userId : String) :
    Option (Store × Account) :=
  match s.accounts.find? (fun a => a.id == accountId && a.userId == userId) with
  | none => none
  | some _ =>
      let accounts1 := s.accounts.map (fun a =>
        if a.userId == userId && a.defaultAccount then
          { a with defaultAccount := false } else a)
      match accounts1.find? (fun a => a.id == accountId) with
      | none => none
      | some target =>
          let updated := { target with defaultAccount := true }
          some ({ s with accounts := accounts1.map (fun a =>
            if a.id == accountId then updated else a) }, updated)

/-- Decimal-digit string of a natural number; the fuel argument bounds the
number of digits. Agrees with JavaScript toString for the ten-digit numbers
produced by the account number generator. -/
def natDigits : ℕ → ℕ → List Char
  | 0, _ => []
  | fuel + 1, n =>
      if n = 0 then []
      else natDigits fuel (n / 10) ++ [Char.ofNat (48 + n % 10)]

/-- Decimal string of a natural number (fuel 30 covers every number the
model produces). -/
def natToString (n : ℕ) : String :=
  if n = 0 then "0" else String.mk (natDigits 30 n)

/-- Model of `generateAccountNumber` (accountUtils): with rnd the value of
Math.random, the string of floor(ACCOUNT_NUMBER_MIN + rnd *
(ACCOUNT_NUMBER_MAX - ACCOUNT_NUMBER_MIN)). No store is consulted. -/
def generateAccountNumber (rnd : ℚ) : String :=
  natToString (Int.toNat ⌊(1000000000 : ℚ) + rnd * ((9999999999 : ℚ) - 1000000000)⌋)

/-- Model of the repository `createAdditionalAccount` (accountRepository):
count the accounts of the user; at or above MAX_ACCOUNTS_PER_USER = 3 return
the limit signal none; otherwise create one account with a generated number,
defaultAccount false and balance DEFAULT_ADDITIONAL_ACCOUNT_BALANCE = 500.
The unique constraint of the store on accountNumber makes the create throw
when the generated number already exists, modelled as Except.error. -/
def createAdditionalAccount (s : Store) (userId : String) (rnd : ℚ)
    (newId : String) : Except Unit (Option (Store × Account)) :=
  let accountCount := (s.accounts.filter (fun a => a.userId == userId)).length
  if 3 ≤ accountCount then
    Except.ok none
  else
    let n := generateAccountNumber rnd
    if (s.accounts.find? (fun a => a.accountNumber == n)).isSome then
      Except.error ()
    else
      let acc : Account := ⟨newId, userId, n, 500, false⟩
      Except.ok (some ({ s with accounts := s.accounts ++ [acc] }, acc))

/-- Presence entry of the socket layer: socket id plus the identity snapshot
captured at connect time. -/
structure ConnectedUser where
  socketId : String
  firstName : String
  lastName : String
  email : String
deriving DecidableEq, Repr

/-- The connectedUsers map of the socket layer, as an insertion-ordered
association list keyed by user id. -/
abbrev Registry := List (String × ConnectedUser)

/-- Model of `connectedUsers.set(userId, entry)`: replace the entry of the
key in place when present, otherwise append at the end, exactly as a
JavaScript Map does. -/
def registrySet (u : String) (c : ConnectedUser) : Registry → Registry
  | [] => [(u, c)]
  | (k, v) :: rest =>
      if k == u then (u, c) :: rest else (k, v) :: registrySet u c rest

/-- Model of `connectedUsers.delete(userId)`. -/
def registryDelete (u : String) (r : Registry) : Registry :=
  r.filter (fun p => !(p.1 == u))

/-- Model of `connectedUsers.get(userId)`. -/
def registryGet (u : String) (r : Registry) : Option ConnectedUser :=
  (r.find? (fun p => p.1 == u)).map Prod.snd

/-- Model of `isUserConnected` (socket layer): `connectedUsers.has(userId)`. -/
def isUserConnected (u : String) (r : Registry) : Bool :=
  r.any (fun p => p.1 == u)

/-- A push event successfully emitted by the socket server. -/
structure EmittedEvent where
  socketId : String
  event : String
  counterparty : String
  amount : ℚ
deriving DecidableEq, Repr

/-- Sender half of `notifyMoneyTransfer`: when the sender is connected,
attempt the money-sent emit; an absent sender yields nothing. -/
def notifySenderPart (reg : Registry) (push : EmittedEvent → Except String Unit)
    (amount : ℚ) (recipientName senderId : String) : List EmittedEvent :=
  match registryGet senderId reg with
  | none => []
  | some sc =>
      match push ⟨sc.socketId, "money-sent", recipientName, amount⟩ with
      | Except.ok _ => [⟨sc.socketId, "money-sent", recipientName, amount⟩]
      | Except.error _ => []

/-- Model of `notifyMoneyTransfer` (socket layer): look up the recipient and
emit money-transfer when connected, then look up the sender and emit
money-sent when connected. The whole body sits in a try/catch, so a failing
push aborts the remaining emits but never propagates: the function always
returns the list of events that were actually delivered. -/
def notifyMoneyTransfer (reg : Registry) (push : EmittedEvent → Except String Unit)
    (amount : ℚ) (senderId senderName recipientId recipientName : String) :
    List EmittedEvent :=
  match registryGet recipientId reg with
  | none => notifySenderPart reg push amount recipientName senderId
  | some rc =>
      match push ⟨rc.socketId, "money-transfer", senderName, amount⟩ with
      | Except.error _ => []
      | Except.ok _ => ⟨rc.socketId, "money-transfer", senderName, amount⟩ ::
          notifySenderPart reg push amount recipientName senderId

/-- The controller transfer followed by the best-effort notification block:
on a created transaction the notifier runs with the user ids of the two
accounts and names resolved by nameOf; every other outcome emits nothing.
The outcome and the store of the transfer are exactly those of the
controller, whatever the notifier does. -/
def transferFundsWithNotify (s : Store) (user : Option String)
    (req : TransferRequest) (txId transactionReference : String)
    (reg : Registry) (push : EmittedEvent → Except String Unit)
    (nameOf : String → String) : TOutcome × Store × List EmittedEvent :=
  match transferFundsController s user req txId transactionReference with
  | (TOutcome.created t, s2, _) =>
      let senderUid := match getAccount s t.fromAccountId with
        | some a => a.userId
        | none => ""
      let recipientUid := match getAccount s t.toAccountId with
        | some a => a.userId
        | none => ""
      (TOutcome.created t, s2,
        notifyMoneyTransfer reg push t.amount senderUid (nameOf senderUid)
          recipientUid (nameOf recipientUid))
  | (o, s2, _) => (o, s2, [])

/-- Sample account used by concrete instances. -/
def accA : Account := ⟨"a1", "u1", "1111111111", 500, true⟩

/-- Sample account used by concrete instances. -/
def accB : Account := ⟨"a2", "u2", "2222222222", 200, true⟩

/-- Sample store with two accounts and no transactions. -/
def sampleStore : Store := ⟨[accA, accB], []⟩

/-- Store with a low-balance source account, used by concrete instances. -/
def cexStore : Store :=
  ⟨[⟨"a1", "u1", "1111111111", 5, true⟩, ⟨"a2", "u2", "2222222222", 0, true⟩], []⟩

/-- In a list of accounts with pairwise distinct ids, looking up the id of a
member finds exactly that member. -/
theorem find_id_of_nodup (l : List Account)
    (hnd : (l.map (fun a => a.id)).Nodup) (a : Account) (ha : a ∈ l) :
    l.find? (fun x => x.id == a.id) = some a := by
  induction l with
  | nil => cases ha
  | cons b t ih =>
      rw [List.map_cons, List.nodup_cons] at hnd
      rcases List.mem_cons.mp ha with h | h
      · subst h
        simp [List.find?_cons]
      · have hbid : (b.id == a.id) = false := by
          apply beq_false_of_ne
          intro he
          exact hnd.1 (he ▸ List.mem_map_of_mem (fun x => x.id) h)
        rw [List.find?_cons, hbid]
        exact ih hnd.2 h

/-- In a list of accounts with pairwise distinct ids, filtering by the id of
a member yields exactly that member. -/
theorem filter_id_of_nodup (l : List Account)
    (hnd : (l.map (fun a => a.id)).Nodup) (a : Account) (ha : a ∈ l) :
    l.filter (fun x => x.id == a.id) = [a] := by
  induction l with
  | nil => cases ha
  | cons b t ih =>
      rw [List.map_cons, List.nodup_cons] at hnd
      rcases List.mem_cons.mp ha with h | h
      · subst h
        rw [List.filter_cons_of_pos (by simp)]
        have : t.filter (fun x => x.id == a.id) = [] := by
          rw [List.filter_eq_nil_iff]
          intro x hx hbx
          exact hnd.1 ((eq_of_beq hbx) ▸ List.mem_map_of_mem (fun y => y.id) hx)
        rw [this]
      · have hbid : (b.id == a.id) = false := by
          apply beq_false_of_ne
          intro he
          exact hnd.1 (he ▸ List.mem_map_of_mem (fun x => x.id) h)
        rw [List.filter_cons_of_neg (by simp [hbid]), ih hnd.2 h]

/-- Mapping an id-preserving update across the accounts commutes with a
lookup by id. -/
theorem find_id_map_comm (l : List Account) (g : Account → Account)
    (hg : ∀ a, (g a).id = a.id) (x : String) :
    (l.map g).find? (fun a => a.id == x) =
      (l.find? (fun a => a.id == x)).map g := by
  have hp : ((fun (a : Account) => a.id == x) ∘ g) = (fun a => a.id == x) := by
    funext a
    simp [Function.comp, hg]
  rw [List.find?_map, hp]

/-- Members of two accounts lists related by id-nodup share ids only when
equal. -/
theorem eq_of_mem_of_id_eq (l : List Account)
    (hnd : (l.map (fun a => a.id)).Nodup) (a b : Account)
    (ha : a ∈ l) (hb : b ∈ l) (hid : a.id = b.id) : a = b :=
  List.inj_on_of_nodup_map hnd ha hb hid

/-- Inversion of the authenticated transfer controller on the success path:
a created transaction means every check passed, identifies the source and
destination accounts, the parsed positive amount within the balance, and
gives the exact shape of the new store. -/
theorem transferAuthed_created_inv (s : Store) (userId : String)
    (req : TransferRequest) (txId ref : String) (t : Transaction) (s' : Store)
    (ops : List StoreOp)
    (h : transferFundsAuthed s userId req txId ref = (TOutcome.created t, s', ops)) :
    ∃ fromA toA q,
      findAccountByIdAndUser s req.accountId userId = some fromA ∧
      findAccountByNumber s req.recipientAccountNumber = some toA ∧
      fromA.accountNumber ≠ req.recipientAccountNumber ∧
      parseDec (req.amount.getD "") = some (Dec.fin q) ∧
      0 < q ∧ q ≤ fromA.balance ∧
      t = ⟨txId, ref, fromA.id, toA.id, q, req.description⟩ ∧
      s'.accounts = applyTransfer s.accounts fromA.id toA.id q ∧
      s'.transactions = s.transactions ++ [t] := by
  unfold transferFundsAuthed at h
  split at h
  · simp at h
  split at h
  · simp at h
  rename_i validateUserAccount hfind1
  split at h
  · simp at h
  rename_i hnumNe
  split at h
  · simp at h
  rename_i amountDecimal hparse
  split at h
  · simp at h
  rename_i hnegzero
  split at h
  · simp at h
  rename_i fromAccount hfind2
  split at h
  · simp at h
  rename_i hbal
  split at h
  · simp at h
  rename_i toAccount hto
  split at h
  · simp at h
  rename_i s2 t2 hrepo
  have hsame : validateUserAccount = fromAccount := Option.some.inj hfind2
  have hfindFrom : findAccountByIdAndUser s req.accountId userId = some fromAccount :=
    hsame ▸ hfind1
  unfold transferFundsRepo at hrepo
  split at hrepo
  · rename_i q hf1 hf2
    simp only [Except.ok.injEq, Prod.mk.injEq] at hrepo
    simp only [Prod.mk.injEq, TOutcome.created.injEq] at h
    obtain ⟨ht, hs, hops⟩ := h
    simp only [Dec.isNegative, Dec.isZero, Bool.or_eq_true, decide_eq_true_eq,
      not_or] at hnegzero
    have hq : 0 < q := by
      rcases lt_trichotomy q 0 with hlt | heq | hgt
      · exact absurd hlt hnegzero.1
      · exact absurd heq hnegzero.2
      · exact hgt
    simp only [Dec.lessThan, decide_eq_true_eq] at hbal
    refine ⟨fromAccount, toAccount, q, hfindFrom, hto, hsame ▸ hnumNe, hparse, hq,
      not_lt.mp hbal, ht.symm.trans hrepo.2.symm, ?_, ?_⟩
    · rw [← hs, ← hrepo.1]
    · rw [← hs, ← hrepo.1, ht.symm.trans hrepo.2.symm]
  · simp at hrepo

/-- On every outcome other than a created transaction the authenticated
controller leaves the store exactly as it found it. -/
theorem transferAuthed_state (s : Store) (userId : String) (req : TransferRequest)
    (txId ref : String) (o : TOutcome) (s' : Store) (ops : List StoreOp)
    (h : transferFundsAuthed s userId req txId ref = (o, s', ops)) :
    s' = s ∨ ∃ t, o = TOutcome.created t := by
  unfold transferFundsAuthed at h
  repeat' split at h
  all_goals simp only [Prod.mk.injEq] at h
  all_goals first
    | exact Or.inl h.2.1.symm
    | exact Or.inr ⟨_, h.1.symm⟩

/-- Lookup by id after the debit and credit of a transfer: the updates are
id-preserving, so the lookup commutes with them. -/
theorem applyTransfer_find (l : List Account) (fromId toId : String) (q : ℚ)
    (x : String) :
    (applyTransfer l fromId toId q).find? (fun a => a.id == x) =
      Option.map (fun a => if a.id == toId then { a with balance := a.balance + q } else a)
        (Option.map (fun a => if a.id == fromId then { a with balance := a.balance - q } else a)
          (l.find? (fun a => a.id == x))) := by
  have hg1 : ∀ a : Account,
      ((fun a => if a.id == fromId then { a with balance := a.balance - q } else a) a).id
        = a.id := by
    intro a
    by_cases hc : (a.id == fromId) = true <;> simp [hc]
  have hg2 : ∀ a : Account,
      ((fun a => if a.id == toId then { a with balance := a.balance + q } else a) a).id
        = a.id := by
    intro a
    by_cases hc : (a.id == toId) = true <;> simp [hc]
  unfold applyTransfer
  rw [find_id_map_comm _ _ hg2, find_id_map_comm _ _ hg1]

/-- C1, counterexample: the repository debit is not guarded at write time.
With a source balance of 5 a transfer of 10 commits at the store and leaves
the stored balance at 5 - 10 < 0: the decrement is applied even though the
resulting balance is negative. -/
theorem repo_debit_unguarded_cex :
    transferFundsRepo cexStore "a1" "a2" (Dec.fin 10) "t1" "TRX-1" none =
      Except.ok
        (⟨[⟨"a1", "u1", "1111111111", (5 : ℚ) - 10, true⟩,
           ⟨"a2", "u2", "2222222222", (0 : ℚ) + 10, true⟩],
          [⟨"t1", "TRX-1", "a1", "a2", 10, none⟩]⟩,
         ⟨"t1", "TRX-1", "a1", "a2", 10, none⟩) ∧
    (5 : ℚ) - 10 < 0 :=
  ⟨rfl, by norm_num⟩

/-- C1, amended: the debit carries no write-time guard (the repository
decrement is unconditional), the balance being checked only at the earlier
controller read; consequently a sequential execution of the full controller
pipeline never drives any stored balance below zero. -/
theorem sequential_controller_nonneg (s : Store) (user : Option String)
    (req : TransferRequest) (txId ref : String) (o : TOutcome) (s' : Store)
    (ops : List StoreOp)
    (hnd : (s.accounts.map (fun a => a.id)).Nodup)
    (hpos : ∀ a ∈ s.accounts, 0 ≤ a.balance)
    (h : transferFundsController s user req txId ref = (o, s', ops)) :
    ∀ a ∈ s'.accounts, 0 ≤ a.balance := by
  cases user with
  | none =>
      simp only [transferFundsController, Prod.mk.injEq] at h
      rw [← h.2.1]
      exact hpos
  | some uid =>
      simp only [transferFundsController] at h
      rcases transferAuthed_state s uid req txId ref o s' ops h with hss | ⟨t, rfl⟩
      · rw [hss]
        exact hpos
      · obtain ⟨fromA, toA, q, hfrom, hto, hne, hparse, hq, hle, ht, haccs, htx⟩ :=
          transferAuthed_created_inv s uid req txId ref t s' ops h
        have hmemF : fromA ∈ s.accounts := List.mem_of_find?_eq_some hfrom
        have hmemT : toA ∈ s.accounts := List.mem_of_find?_eq_some hto
        have hto' : s.accounts.find?
            (fun a => a.accountNumber == req.recipientAccountNumber) = some toA := hto
        have hbeq : (toA.accountNumber == req.recipientAccountNumber) = true :=
          @List.find?_some _ (fun a => a.accountNumber == req.recipientAccountNumber)
            toA s.accounts hto'
        have htoNum : toA.accountNumber = req.recipientAccountNumber := eq_of_beq hbeq
        have hneq : fromA ≠ toA := by
          intro hEq
          exact hne (hEq ▸ htoNum)
        have hidne : fromA.id ≠ toA.id := by
          intro hEq
          exact hneq (eq_of_mem_of_id_eq s.accounts hnd fromA toA hmemF hmemT hEq)
        intro a ha
        rw [haccs] at ha
        unfold applyTransfer at ha
        rcases List.mem_map.mp ha with ⟨b, hb, rfl⟩
        rcases List.mem_map.mp hb with ⟨c, hc, rfl⟩
        by_cases h1 : (c.id == fromA.id) = true
        · have hcf : c = fromA :=
            eq_of_mem_of_id_eq s.accounts hnd c fromA hc hmemF (eq_of_beq h1)
          have h2 : (c.id == toA.id) = false := by
            rw [eq_of_beq h1]
            exact beq_false_of_ne hidne
          simp only [h1, h2]
          simp only [if_true, Bool.false_eq_true, if_false, hcf]
          rw [if_neg (fun hcond => hidne (eq_of_beq hcond))]
          exact sub_nonneg.mpr hle
        · simp only [h1, Bool.false_eq_true, if_false]
          by_cases h2 : (c.id == toA.id) = true
          · have hct : c = toA :=
              eq_of_mem_of_id_eq s.accounts hnd c toA hc hmemT (eq_of_beq h2)
            simp only [h2, if_true, hct]
            rw [if_pos (beq_self_eq_true toA.id)]
            exact add_nonneg (hpos toA hmemT) hq.le
          · simp only [h2, Bool.false_eq_true, if_false]
            exact hpos c hc

/-- Witness for the amended C1 theorem at a concrete successful transfer of
100 from the account with balance 500. -/
theorem sequential_controller_nonneg_witness : 0 ≤ (500 : ℚ) - 100 :=
  sequential_controller_nonneg sampleStore (some "u1")
    ⟨"a1", "2222222222", some "100", none⟩ "t1" "TRX-1" _ _ _
    (by decide) (by decide) rfl
    ⟨"a1", "u1", "1111111111", (500 : ℚ) - 100, true⟩ (List.mem_cons_self _ _)

/-- C2: a committed transfer conserves the sum of the two balances, debits
the source by exactly the amount, credits the destination by exactly the
amount, and appends exactly one transaction record carrying that amount;
on every other outcome the store is fully unchanged, so the three effects
appear all together or not at all. -/
theorem transfer_conservation_atomic (s : Store) (user : Option String)
    (req : TransferRequest) (txId ref : String) (o : TOutcome) (s' : Store)
    (ops : List StoreOp)
    (hnd : (s.accounts.map (fun a => a.id)).Nodup)
    (h : transferFundsController s user req txId ref = (o, s', ops)) :
    (∀ t, o = TOutcome.created t →
      s'.transactions = s.transactions ++ [t] ∧
      ∃ fa ta fa' ta',
        getAccount s t.fromAccountId = some fa ∧
        getAccount s t.toAccountId = some ta ∧
        getAccount s' t.fromAccountId = some fa' ∧
        getAccount s' t.toAccountId = some ta' ∧
        fa'.balance = fa.balance - t.amount ∧
        ta'.balance = ta.balance + t.amount ∧
        fa'.balance + ta'.balance = fa.balance + ta.balance) ∧
    ((∀ t, o ≠ TOutcome.created t) → s' = s) := by
  cases user with
  | none =>
      simp only [transferFundsController, Prod.mk.injEq] at h
      constructor
      · intro t hot
        rw [← h.1] at hot
        simp at hot
      · intro _
        exact h.2.1.symm
  | some uid =>
      simp only [transferFundsController] at h
      constructor
      · intro t hot
        subst hot
        obtain ⟨fromA, toA, q, hfrom, hto, hne, hparse, hq, hle, ht, haccs, htx⟩ :=
          transferAuthed_created_inv s uid req txId ref t s' ops h
        have hfrom' : s.accounts.find?
            (fun a => a.id == req.accountId && a.userId == uid) = some fromA := hfrom
        have hto' : s.accounts.find?
            (fun a => a.accountNumber == req.recipientAccountNumber) = some toA := hto
        have hmemF : fromA ∈ s.accounts := List.mem_of_find?_eq_some hfrom'
        have hmemT : toA ∈ s.accounts := List.mem_of_find?_eq_some hto'
        have hbeq : (toA.accountNumber == req.recipientAccountNumber) = true :=
          @List.find?_some _ (fun a => a.accountNumber == req.recipientAccountNumber)
            toA s.accounts hto'
        have hidne : fromA.id ≠ toA.id := by
          intro hEq
          exact hne ((eq_of_mem_of_id_eq s.accounts hnd fromA toA hmemF hmemT hEq) ▸
            eq_of_beq hbeq)
        have hgF : s.accounts.find? (fun x => x.id == fromA.id) = some fromA :=
          find_id_of_nodup s.accounts hnd fromA hmemF
        have hgT : s.accounts.find? (fun x => x.id == toA.id) = some toA :=
          find_id_of_nodup s.accounts hnd toA hmemT
        have hgF' : getAccount s' fromA.id =
            some ⟨fromA.id, fromA.userId, fromA.accountNumber,
              fromA.balance - q, fromA.defaultAccount⟩ := by
          unfold getAccount
          rw [haccs, applyTransfer_find, hgF]
          simp only [Option.map_some']
          rw [if_pos (beq_self_eq_true fromA.id)]
          rw [if_neg (fun hcond => hidne (eq_of_beq hcond))]
        have hgT' : getAccount s' toA.id =
            some ⟨toA.id, toA.userId, toA.accountNumber,
              toA.balance + q, toA.defaultAccount⟩ := by
          unfold getAccount
          rw [haccs, applyTransfer_find, hgT]
          simp only [Option.map_some']
          rw [if_neg (fun hcond => hidne (Eq.symm (eq_of_beq hcond)))]
          rw [if_pos (beq_self_eq_true toA.id)]
        subst ht
        refine ⟨htx, fromA, toA, _, _, hgF, hgT, hgF', hgT', rfl, rfl, by ring⟩
      · intro ho
        rcases transferAuthed_state s uid req txId ref o s' ops h with hss | ⟨t, hot⟩
        · exact hss
        · exact absurd hot (ho t)

/-- Witness for the C2 theorem at a concrete committed transfer: exactly one
transaction record is appended. -/
theorem transfer_conservation_atomic_witness :
    ((transferFundsController sampleStore (some "u1")
        ⟨"a1", "2222222222", some "100", none⟩ "t1" "TRX-1").2.1).transactions =
      sampleStore.transactions ++ [⟨"t1", "TRX-1", "a1", "a2", 100, none⟩] :=
  ((transfer_conservation_atomic sampleStore (some "u1")
      ⟨"a1", "2222222222", some "100", none⟩ "t1" "TRX-1" _ _ _ (by decide) rfl).1
    ⟨"t1", "TRX-1", "a1", "a2", 100, none⟩ rfl).1

/-- Store with a single low-balance account and no recipient account,
used by concrete instances. -/
def c3Store : Store := ⟨[⟨"a1", "u1", "1111111111", 5, true⟩], []⟩

/-- C3, counterexample: a request whose recipient does not exist and whose
source balance (5) is below the amount (10) fails with InsufficientFunds,
not RecipientNotFound — the code checks the balance before looking up the
recipient, contradicting the order given in the claim. -/
theorem check_order_cex :
    (transferFundsController c3Store (some "u1")
        ⟨"a1", "3333333333", some "10", none⟩ "t1" "TRX-1").1 =
      TOutcome.insufficientFunds ∧
    findAccountByNumber c3Store "3333333333" = none ∧
    TOutcome.insufficientFunds ≠ TOutcome.recipientNotFound :=
  ⟨rfl, rfl, by decide⟩

/-- C3, amended: after the required-fields, ownership, same-account and
amount checks, the balance check comes before the recipient lookup: an
underfunded request fails with InsufficientFunds whatever the recipient,
and RecipientNotFound is only reached when the balance suffices. -/
theorem check_order_amended (s : Store) (userId : String) (req : TransferRequest)
    (txId ref : String) (fromA : Account) (astr : String) (q : ℚ)
    (hacc : req.accountId ≠ "") (hrec : req.recipientAccountNumber ≠ "")
    (hamt : req.amount = some astr)
    (hfind : findAccountByIdAndUser s req.accountId userId = some fromA)
    (hnum : fromA.accountNumber ≠ req.recipientAccountNumber)
    (hparse : parseDec astr = some (Dec.fin q)) (hq : 0 < q) :
    (fromA.balance < q →
      transferFundsAuthed s userId req txId ref =
        (TOutcome.insufficientFunds, s,
          [StoreOp.readAccountByIdAndUser req.accountId userId,
           StoreOp.readAccountByIdAndUser req.accountId userId])) ∧
    (q ≤ fromA.balance → findAccountByNumber s req.recipientAccountNumber = none →
      transferFundsAuthed s userId req txId ref =
        (TOutcome.recipientNotFound, s,
          [StoreOp.readAccountByIdAndUser req.accountId userId,
           StoreOp.readAccountByIdAndUser req.accountId userId,
           StoreOp.readAccountByNumber req.recipientAccountNumber])) := by
  have h1 : ¬(q < 0) := not_lt.mpr hq.le
  have h2 : ¬(q = 0) := hq.ne'
  constructor
  · intro hbal
    simp only [transferFundsAuthed, hamt, ne_eq, hacc, hrec, Option.getD_some,
      hfind, hnum, hparse, Dec.isNegative, Dec.isZero, Dec.lessThan,
      Bool.or_eq_true, decide_eq_true_eq, h1, h2, or_self, hbal,
      not_false_eq_true, false_or, or_false, if_false, if_true, ite_true,
      ite_false, reduceCtorEq]
  · intro hbal hnb
    have hbal' : ¬(fromA.balance < q) := not_lt.mpr hbal
    simp only [transferFundsAuthed, hamt, ne_eq, hacc, hrec, Option.getD_some,
      hfind, hnum, hparse, Dec.isNegative, Dec.isZero, Dec.lessThan,
      Bool.or_eq_true, decide_eq_true_eq, h1, h2, or_self, hbal', hnb,
      not_false_eq_true, false_or, or_false, if_false, if_true, ite_true,
      ite_false, reduceCtorEq]

/-- Witness for the amended C3 theorem: the concrete underfunded request
with a nonexistent recipient yields InsufficientFunds. -/
theorem check_order_amended_witness :
    transferFundsAuthed c3Store "u1" ⟨"a1", "3333333333", some "10", none⟩
        "t1" "TRX-1" =
      (TOutcome.insufficientFunds, c3Store,
        [StoreOp.readAccountByIdAndUser "a1" "u1",
         StoreOp.readAccountByIdAndUser "a1" "u1"]) :=
  (check_order_amended c3Store "u1" ⟨"a1", "3333333333", some "10", none⟩
      "t1" "TRX-1" ⟨"a1", "u1", "1111111111", 5, true⟩ "10" 10
      (by decide) (by decide) rfl rfl (by decide) rfl (by norm_num)).1
    (by norm_num)

/-- C4, counterexample: the string NaN parses as a decimal.js value that is
neither negative nor zero, so it passes the amount validation and reaches
the store commit (which fails as an internal error) instead of being
rejected as an invalid amount. -/
theorem invalid_amount_nan_cex :
    parseDec "NaN" = some Dec.nan ∧
    (Dec.nan.isNegative || Dec.nan.isZero) = false ∧
    (transferFundsController cexStore (some "u1")
        ⟨"a1", "2222222222", some "NaN", none⟩ "t1" "TRX-1").1 =
      TOutcome.internalError ∧
    TOutcome.internalError ≠ TOutcome.invalidAmountFormat ∧
    TOutcome.internalError ≠ TOutcome.nonPositiveAmount :=
  ⟨rfl, rfl, rfl, by decide, by decide⟩

/-- C4, amended: with the earlier checks passed, an unparsable amount is
rejected as an invalid format and a parsed negative-or-zero amount as
non-positive, each with no state change; every finite amount passing the
check is strictly positive, but the non-finite values NaN and Infinity also
pass it, so not every accepted amount is a genuine positive decimal
number. -/
theorem amount_validation_amended (s : Store) (userId : String)
    (req : TransferRequest) (txId ref : String) (fromA : Account) (astr : String)
    (hacc : req.accountId ≠ "") (hrec : req.recipientAccountNumber ≠ "")
    (hamt : req.amount = some astr)
    (hfind : findAccountByIdAndUser s req.accountId userId = some fromA)
    (hnum : fromA.accountNumber ≠ req.recipientAccountNumber) :
    (parseDec astr = none →
      transferFundsAuthed s userId req txId ref =
        (TOutcome.invalidAmountFormat, s,
          [StoreOp.readAccountByIdAndUser req.accountId userId])) ∧
    (∀ d, parseDec astr = some d → (d.isNegative || d.isZero) = true →
      transferFundsAuthed s userId req txId ref =
        (TOutcome.nonPositiveAmount, s,
          [StoreOp.readAccountByIdAndUser req.accountId userId])) ∧
    (∀ q : ℚ, parseDec astr = some (Dec.fin q) →
      ((Dec.fin q).isNegative || (Dec.fin q).isZero) = false → 0 < q) ∧
    (Dec.nan.isNegative || Dec.nan.isZero) = false ∧
    (Dec.posInf.isNegative || Dec.posInf.isZero) = false := by
  refine ⟨?_, ?_, ?_, rfl, rfl⟩
  · intro hp
    simp only [transferFundsAuthed, hamt, ne_eq, hacc, hrec, Option.getD_some,
      hfind, hnum, hp, not_false_eq_true, false_or, or_false, if_false,
      ite_false, reduceCtorEq]
  · intro d hp hdz
    simp only [transferFundsAuthed, hamt, ne_eq, hacc, hrec, Option.getD_some,
      hfind, hnum, hp, hdz, not_false_eq_true, false_or, or_false, if_false,
      if_true, ite_true, ite_false, reduceCtorEq]
  · intro q _ hfz
    simp only [Dec.isNegative, Dec.isZero, Bool.or_eq_false_iff,
      decide_eq_false_iff_not] at hfz
    rcases lt_trichotomy q 0 with hlt | heq | hgt
    · exact absurd hlt hfz.1
    · exact absurd heq hfz.2
    · exact hgt

/-- Witness for the amended C4 theorem: the unparsable amount string abc is
rejected as an invalid amount format with no state change. -/
theorem amount_validation_amended_witness :
    transferFundsAuthed cexStore "u1" ⟨"a1", "2222222222", some "abc", none⟩
        "t1" "TRX-1" =
      (TOutcome.invalidAmountFormat, cexStore,
        [StoreOp.readAccountByIdAndUser "a1" "u1"]) :=
  (amount_validation_amended cexStore "u1"
      ⟨"a1", "2222222222", some "abc", none⟩ "t1" "TRX-1"
      ⟨"a1", "u1", "1111111111", 5, true⟩ "abc"
      (by decide) (by decide) rfl rfl (by decide)).1 rfl

/-- C5, counterexample: a transfer from an account to its own account number
is rejected with SameAccountTransfer, but only after the source-ownership
lookup has already read the Account Store: the recorded trace of store
operations is not empty. -/
theorem same_account_store_read_cex :
    transferFundsController cexStore (some "u1")
        ⟨"a1", "1111111111", some "10", none⟩ "t1" "TRX-1" =
      (TOutcome.sameAccountTransfer, cexStore,
        [StoreOp.readAccountByIdAndUser "a1" "u1"]) ∧
    ([StoreOp.readAccountByIdAndUser "a1" "u1"] : List StoreOp) ≠ [] :=
  ⟨rfl, by decide⟩

/-- C5, amended: a same-account transfer is rejected with
SameAccountTransfer with no state change and no store write; the only store
access performed before the rejection is the source-ownership read. -/
theorem same_account_amended (s : Store) (userId : String)
    (req : TransferRequest) (txId ref : String) (fromA : Account)
    (hacc : req.accountId ≠ "") (hrec : req.recipientAccountNumber ≠ "")
    (hamt : req.amount ≠ none)
    (hfind : findAccountByIdAndUser s req.accountId userId = some fromA)
    (heqn : fromA.accountNumber = req.recipientAccountNumber) :
    transferFundsAuthed s userId req txId ref =
      (TOutcome.sameAccountTransfer, s,
        [StoreOp.readAccountByIdAndUser req.accountId userId]) := by
  simp only [transferFundsAuthed, ne_eq, hacc, hrec, hamt, hfind, heqn,
    not_false_eq_true, false_or, or_false, if_false, if_true, ite_true,
    ite_false, or_self]

/-- Witness for the amended C5 theorem at the concrete same-account
request. -/
theorem same_account_amended_witness :
    transferFundsAuthed cexStore "u1" ⟨"a1", "1111111111", some "10", none⟩
        "t1" "TRX-1" =
      (TOutcome.sameAccountTransfer, cexStore,
        [StoreOp.readAccountByIdAndUser "a1" "u1"]) :=
  same_account_amended cexStore "u1" ⟨"a1", "1111111111", some "10", none⟩
    "t1" "TRX-1" ⟨"a1", "u1", "1111111111", 5, true⟩
    (by decide) (by decide) (by decide) rfl rfl

/-- C6: setting a default account fails (with no new store) exactly when the
account is not owned by the user; on success the returned account is the
requested one with the default flag set, the accounts of the user carrying
the default flag afterwards are exactly the requested account, and the
transactions table is untouched. -/
theorem set_default_unique (s : Store) (accountId userId : String)
    (hnd : (s.accounts.map (fun a => a.id)).Nodup)
    (_hone : (s.accounts.filter
      (fun a => a.userId == userId && a.defaultAccount)).length = 1) :
    (s.accounts.find? (fun a => a.id == accountId && a.userId == userId) = none →
      setAccountAsDefault s accountId userId = none) ∧
    (∀ s' acc, setAccountAsDefault s accountId userId = some (s', acc) →
      acc.id = accountId ∧ acc.defaultAccount = true ∧
      ((s'.accounts.filter (fun a => a.userId == userId && a.defaultAccount)).map
          (fun a => a.id)) = [accountId] ∧
      s'.transactions = s.transactions ∧
      (∀ a ∈ s.accounts, a.userId ≠ userId → a ∈ s'.accounts)) := by
  constructor
  · intro hn
    simp only [setAccountAsDefault, hn]
  · intro s' acc hsome
    simp only [setAccountAsDefault] at hsome
    split at hsome
    · simp at hsome
    rename_i acc0 hfind0
    split at hsome
    · simp at hsome
    rename_i target htarget
    simp only [Option.some.injEq, Prod.mk.injEq] at hsome
    obtain ⟨hs', hacc⟩ := hsome
    have hmem0 : acc0 ∈ s.accounts := List.mem_of_find?_eq_some hfind0
    have hpred0 : (acc0.id == accountId && acc0.userId == userId) = true :=
      @List.find?_some _ (fun a => a.id == accountId && a.userId == userId)
        acc0 s.accounts hfind0
    have hid0 : acc0.id = accountId := eq_of_beq (Bool.and_elim_left hpred0)
    have huid0 : acc0.userId = userId := eq_of_beq (Bool.and_elim_right hpred0)
    have hpres : ∀ a : Account,
        ((fun a => if a.userId == userId && a.defaultAccount then
          { a with defaultAccount := false } else a) a).id = a.id := by
      intro a
      by_cases hc : (a.userId == userId && a.defaultAccount) = true <;> simp [hc]
    have hbase : s.accounts.find? (fun a => a.id == accountId) = some acc0 := by
      have := find_id_of_nodup s.accounts hnd acc0 hmem0
      rw [hid0] at this
      exact this
    have hcomm := find_id_map_comm s.accounts
      (fun a => if a.userId == userId && a.defaultAccount then
        { a with defaultAccount := false } else a) hpres accountId
    rw [hbase] at hcomm
    have htgt : target =
        (fun a => if a.userId == userId && a.defaultAccount then
          { a with defaultAccount := false } else a) acc0 :=
      Option.some.inj (htarget.symm.trans hcomm)
    have htgtId : target.id = accountId := by
      rw [htgt, hpres acc0, hid0]
    have htgtUid : target.userId = userId := by
      simp only [htgt]
      by_cases hc : (acc0.userId == userId && acc0.defaultAccount) = true
      · rw [if_pos hc]
        exact huid0
      · rw [if_neg hc]
        exact huid0
    refine ⟨?_, ?_, ?_, ?_, ?_⟩
    · rw [← hacc]
      exact htgtId
    · rw [← hacc]
    · rw [← hs']
      have hfm : (s.accounts.map (fun a =>
          if a.userId == userId && a.defaultAccount then
            { a with defaultAccount := false } else a)).map (fun a =>
          if a.id == accountId then { target with defaultAccount := true } else a) =
          s.accounts.map ((fun a =>
            if a.id == accountId then { target with defaultAccount := true } else a) ∘
          (fun a => if a.userId == userId && a.defaultAccount then
            { a with defaultAccount := false } else a)) := List.map_map ..
      rw [hfm, List.filter_map]
      have hpt : ∀ a ∈ s.accounts,
          ((fun a => a.userId == userId && a.defaultAccount) ∘
            ((fun a => if a.id == accountId then
              { target with defaultAccount := true } else a) ∘
            (fun a => if a.userId == userId && a.defaultAccount then
              { a with defaultAccount := false } else a))) a =
          (fun a => a.id == acc0.id) a := by
        intro a _
        simp only [Function.comp]
        by_cases hidc : (a.id == accountId) = true
        · have hgoal : (a.id == acc0.id) = true := by
            rw [hid0]
            exact hidc
          by_cases hc : (a.userId == userId && a.defaultAccount) = true <;>
            simp [hc, hidc, hgoal, htgtUid]
        · have hgoal : (a.id == acc0.id) = false := by
            rw [hid0]
            exact Bool.eq_false_iff.mpr hidc
          by_cases hc : (a.userId == userId && a.defaultAccount) = true <;>
            simp [hc, hidc, hgoal]
      rw [List.filter_congr hpt, filter_id_of_nodup s.accounts hnd acc0 hmem0]
      simp only [List.map_cons, List.map_nil, Function.comp]
      rw [if_pos ?pc]
      case pc =>
        rw [hpres acc0, hid0]
        exact beq_self_eq_true accountId
      simp [htgtId]
    · rw [← hs']
    · intro a ha hau
      rw [← hs']
      have hcondF : (a.userId == userId && a.defaultAccount) = false := by
        have hb : (a.userId == userId) = false := beq_false_of_ne hau
        simp [hb]
      have hfa : (fun a => if a.userId == userId && a.defaultAccount then
          { a with defaultAccount := false } else a) a = a := by
        simp only [hcondF, Bool.false_eq_true, if_false]
      have hidF : (a.id == accountId) = false := by
        apply beq_false_of_ne
        intro hEq
        have haeq : a = acc0 :=
          eq_of_mem_of_id_eq s.accounts hnd a acc0 ha hmem0 (hEq.trans hid0.symm)
        apply hau
        rw [haeq]
        exact huid0
      have hga : (fun b => if b.id == accountId then
          { target with defaultAccount := true } else b) a = a := by
        simp only [hidF, Bool.false_eq_true, if_false]
      have hm1 := List.mem_map_of_mem (fun a =>
        if a.userId == userId && a.defaultAccount then
          { a with defaultAccount := false } else a) ha
      rw [hfa] at hm1
      have hm2 := List.mem_map_of_mem (fun b =>
        if b.id == accountId then { target with defaultAccount := true } else b) hm1
      rw [hga] at hm2
      exact hm2

/-- Witness for the C6 theorem: after setting account a1 as default for user
u1 in the sample store, the default accounts of u1 are exactly a1. -/
theorem set_default_unique_witness :
    (((⟨[⟨"a1", "u1", "1111111111", 500, true⟩,
        ⟨"a2", "u2", "2222222222", 200, true⟩], []⟩ : Store).accounts.filter
      (fun a => a.userId == "u1" && a.defaultAccount)).map (fun a => a.id)) =
      ["a1"] :=
  ((set_default_unique sampleStore "a1" "u1" (by decide) (by decide)).2
    ⟨[⟨"a1", "u1", "1111111111", 500, true⟩,
      ⟨"a2", "u2", "2222222222", 200, true⟩], []⟩
    ⟨"a1", "u1", "1111111111", 500, true⟩ rfl).2.2.1

/-- C7, amended: creating an additional account returns the limit signal
with no record when the user already has three accounts; below the limit it
generates a random ten-digit account number with no uniqueness check — when
the number collides with an existing account the store unique constraint
fails the operation with an error, and only when the number is fresh is
exactly one account created, with the default flag unset and balance 500. -/
theorem create_additional_account_amended (s : Store) (userId : String)
    (rnd : ℚ) (newId : String) :
    (3 ≤ (s.accounts.filter (fun a => a.userId == userId)).length →
      createAdditionalAccount s userId rnd newId = Except.ok none) ∧
    ((s.accounts.filter (fun a => a.userId == userId)).length < 3 →
      (∃ a, a ∈ s.accounts ∧ (a.accountNumber == generateAccountNumber rnd) = true) →
      createAdditionalAccount s userId rnd newId = Except.error ()) ∧
    ((s.accounts.filter (fun a => a.userId == userId)).length < 3 →
      s.accounts.find? (fun a => a.accountNumber == generateAccountNumber rnd) = none →
      createAdditionalAccount s userId rnd newId =
        Except.ok (some
          ({ accounts := s.accounts ++
              [⟨newId, userId, generateAccountNumber rnd, 500, false⟩],
             transactions := s.transactions },
           ⟨newId, userId, generateAccountNumber rnd, 500, false⟩))) := by
  refine ⟨?_, ?_, ?_⟩
  · intro hcnt
    simp only [createAdditionalAccount, if_pos hcnt]
  · intro hcnt hex
    have hsome : (s.accounts.find?
        (fun a => a.accountNumber == generateAccountNumber rnd)).isSome = true := by
      rw [List.find?_isSome]
      exact hex
    simp only [createAdditionalAccount, if_neg (not_le.mpr hcnt), hsome, if_true,
      ite_true]
  · intro hcnt hnone
    simp only [createAdditionalAccount, if_neg (not_le.mpr hcnt), hnone,
      Option.isSome_none, Bool.false_eq_true, if_false, ite_false]

/-- Store with a single account whose number the colliding random draw
regenerates, used by concrete instances. -/
def c7Store : Store := ⟨[⟨"a1", "u1", "5000000000", 1000, true⟩], []⟩

/-- C7, counterexample: the generated account number is not globally unique.
The legitimate Math.random value 4000000000/8999999999 regenerates the
already-present number 5000000000, and the creation then fails with an
error instead of producing an account with a fresh number. -/
theorem account_number_collision_cex :
    (0 : ℚ) ≤ 4000000000/8999999999 ∧ (4000000000/8999999999 : ℚ) < 1 ∧
    generateAccountNumber (4000000000/8999999999) = "5000000000" ∧
    createAdditionalAccount c7Store "u1" (4000000000/8999999999) "a2" =
      Except.error () := by
  have hfloor : (⌊(1000000000 : ℚ) + (4000000000/8999999999 : ℚ) *
      ((9999999999 : ℚ) - 1000000000)⌋ : ℤ) = 5000000000 := by norm_num
  have hgen : generateAccountNumber (4000000000/8999999999 : ℚ) = "5000000000" := by
    rw [generateAccountNumber, hfloor]
    rfl
  refine ⟨by norm_num, by norm_num, hgen, ?_⟩
  simp only [createAdditionalAccount, hgen]
  rfl

/-- Store holding three accounts of one user, used by concrete instances. -/
def c7FullStore : Store :=
  ⟨[⟨"b1", "u9", "7000000001", 500, true⟩, ⟨"b2", "u9", "7000000002", 500, false⟩,
    ⟨"b3", "u9", "7000000003", 500, false⟩], []⟩

/-- Witness for the amended C7 theorem: a user at the three-account limit
receives the limit signal and no record is created. -/
theorem create_additional_account_amended_witness :
    createAdditionalAccount c7FullStore "u9" (1/2) "b4" = Except.ok none :=
  (create_additional_account_amended c7FullStore "u9" (1/2) "b4").1 (by decide)

/-- Every event produced by the sender half of the notifier is a money-sent
event to the socket of a registered sender. -/
theorem notifySenderPart_spec (reg : Registry)
    (push : EmittedEvent → Except String Unit) (amount : ℚ)
    (recipientName senderId : String) :
    ∀ e ∈ notifySenderPart reg push amount recipientName senderId,
      e.event = "money-sent" ∧ ∃ sc, registryGet senderId reg = some sc ∧
        e.socketId = sc.socketId := by
  intro e he
  unfold notifySenderPart at he
  split at he
  · simp at he
  rename_i sc hs
  split at he
  · rename_i v hp
    simp only [List.mem_singleton] at he
    subst he
    exact ⟨rfl, sc, hs, rfl⟩
  · simp at he

/-- C8: the notifier is best-effort and cannot influence the transfer. An
absent recipient yields no money-transfer event and an absent sender no
money-sent event; every delivered event goes to the socket of a party
present in the registry with the role-specific event name; and the outcome
and resulting store of the transfer pipeline are identical for any two push
functions, in particular for one that always fails. -/
theorem notify_best_effort (reg : Registry)
    (push push2 : EmittedEvent → Except String Unit) (amount : ℚ)
    (senderId senderName recipientId recipientName : String) :
    (registryGet recipientId reg = none →
      ((notifyMoneyTransfer reg push amount senderId senderName recipientId
        recipientName).all (fun e => !(e.event == "money-transfer"))) = true) ∧
    (registryGet senderId reg = none →
      ((notifyMoneyTransfer reg push amount senderId senderName recipientId
        recipientName).all (fun e => !(e.event == "money-sent"))) = true) ∧
    (∀ e ∈ notifyMoneyTransfer reg push amount senderId senderName recipientId
        recipientName,
      (e.event = "money-transfer" ∧ ∃ rc, registryGet recipientId reg = some rc ∧
        e.socketId = rc.socketId) ∨
      (e.event = "money-sent" ∧ ∃ sc, registryGet senderId reg = some sc ∧
        e.socketId = sc.socketId)) ∧
    (∀ (s : Store) (user : Option String) (req : TransferRequest)
      (txId ref : String) (nameOf : String → String),
      (transferFundsWithNotify s user req txId ref reg push nameOf).1 =
        (transferFundsWithNotify s user req txId ref reg push2 nameOf).1 ∧
      (transferFundsWithNotify s user req txId ref reg push nameOf).2.1 =
        (transferFundsWithNotify s user req txId ref reg push2 nameOf).2.1) := by
  refine ⟨?_, ?_, ?_, ?_⟩
  · intro hr
    unfold notifyMoneyTransfer
    rw [hr]
    rw [List.all_eq_true]
    intro e he
    have := notifySenderPart_spec reg push amount recipientName senderId e he
    simp [this.1]
  · intro hs
    unfold notifyMoneyTransfer
    split
    · rw [List.all_eq_true]
      intro e he
      have := notifySenderPart_spec reg push amount recipientName senderId e he
      rw [this.2.choose_spec.1] at hs
      simp at hs
    rename_i rc hr
    split
    · rfl
    · rw [List.all_eq_true]
      intro e he
      rcases List.mem_cons.mp he with rfl | he2
      · rfl
      · have := notifySenderPart_spec reg push amount recipientName senderId e he2
        rw [this.2.choose_spec.1] at hs
        simp at hs
  · intro e he
    unfold notifyMoneyTransfer at he
    split at he
    · exact Or.inr (notifySenderPart_spec reg push amount recipientName senderId e he)
    rename_i rc hr
    split at he
    · simp at he
    · rcases List.mem_cons.mp he with rfl | he2
      · exact Or.inl ⟨rfl, rc, hr, rfl⟩
      · exact Or.inr
          (notifySenderPart_spec reg push amount recipientName senderId e he2)
  · intro s user req txId ref nameOf
    unfold transferFundsWithNotify
    rcases hres : transferFundsController s user req txId ref with ⟨o, s2, tr⟩
    cases o <;> exact ⟨rfl, rfl⟩

/-- Connected user snapshot used by concrete instances. -/
def cuA : ConnectedUser := ⟨"s1", "Alice", "Smith", "alice@example.com"⟩

/-- Connected user snapshot used by concrete instances. -/
def cuB : ConnectedUser := ⟨"s2", "Bob", "Jones", "bob@example.com"⟩

/-- Witness for the C8 theorem: with only the sender connected, no
money-transfer event is delivered to the absent recipient. -/
theorem notify_best_effort_witness :
    ((notifyMoneyTransfer [("u1", cuA)] (fun _ => Except.ok ()) 5 "u1"
      "Alice Smith" "u9" "Bob Jones").all
        (fun e => !(e.event == "money-transfer"))) = true :=
  (notify_best_effort [("u1", cuA)] (fun _ => Except.ok ())
    (fun _ => Except.ok ()) 5 "u1" "Alice Smith" "u9" "Bob Jones").1 rfl

/-- Registering a user makes the user present, whatever the prior state. -/
theorem isUserConnected_set (u : String) (c : ConnectedUser) (r : Registry) :
    isUserConnected u (registrySet u c r) = true := by
  induction r with
  | nil => simp [registrySet, isUserConnected]
  | cons p t ih =>
      obtain ⟨k, v⟩ := p
      by_cases hk : (k == u) = true
      · simp [registrySet, hk, isUserConnected]
      · simp only [registrySet, hk, Bool.false_eq_true, if_false]
        simp only [isUserConnected, List.any_cons, hk, Bool.false_or]
        exact ih

/-- Unregistering a user removes every trace of the user from the map. -/
theorem isUserConnected_delete (u : String) (r : Registry) :
    isUserConnected u (registryDelete u r) = false := by
  rw [isUserConnected, registryDelete]
  rw [Bool.eq_false_iff]
  intro hany
  rcases List.any_eq_true.mp hany with ⟨p, hp, hpu⟩
  rcases List.mem_filter.mp hp with ⟨_, hkeep⟩
  rw [hpu] at hkeep
  simp at hkeep

/-- Looking up a user right after registering a connection for the user
returns exactly that connection: a second register overwrites the first. -/
theorem registryGet_set (u : String) (c : ConnectedUser) (r : Registry) :
    registryGet u (registrySet u c r) = some c := by
  induction r with
  | nil => simp [registrySet, registryGet]
  | cons p t ih =>
      obtain ⟨k, v⟩ := p
      by_cases hk : (k == u) = true
      · simp [registrySet, hk, registryGet]
      · simp only [registrySet, hk, Bool.false_eq_true, if_false]
        simp only [registryGet, List.find?_cons, hk] at ih ⊢
        exact ih

/-- The keys present after a register are the old keys plus the registered
user. -/
theorem mem_keys_set (u : String) (c : ConnectedUser) (x : String) :
    ∀ r : Registry, x ∈ (registrySet u c r).map Prod.fst ↔
      x = u ∨ x ∈ r.map Prod.fst := by
  intro r
  induction r with
  | nil => simp [registrySet]
  | cons p t ih =>
      obtain ⟨k, v⟩ := p
      by_cases hk : (k == u) = true
      · rw [eq_of_beq hk]
        simp [registrySet, hk]
      · simp only [registrySet, hk, Bool.false_eq_true, if_false, List.map_cons,
          List.mem_cons, ih]
        tauto

/-- Registering preserves the invariant that each user has at most one
entry in the map. -/
theorem keys_set_nodup (u : String) (c : ConnectedUser) (r : Registry)
    (hnd : (r.map Prod.fst).Nodup) :
    ((registrySet u c r).map Prod.fst).Nodup := by
  induction r with
  | nil => simp [registrySet]
  | cons p t ih =>
      obtain ⟨k, v⟩ := p
      rw [List.map_cons, List.nodup_cons] at hnd
      by_cases hk : (k == u) = true
      · simp only [registrySet, hk, if_true, ite_true, List.map_cons,
          List.nodup_cons]
        exact ⟨(eq_of_beq hk).symm ▸ hnd.1, hnd.2⟩
      · simp only [registrySet, hk, Bool.false_eq_true, if_false, List.map_cons,
          List.nodup_cons]
        refine ⟨?_, ih hnd.2⟩
        intro hmem
        rcases (mem_keys_set u c k t).mp hmem with h | h
        · exact absurd (h ▸ hk) (by simp)
        · exact hnd.1 h

/-- C9: registering a user makes IsPresent true, unregistering makes it
false, a second register for the same user overwrites the prior connection
handle, and registering preserves the at-most-one-entry-per-user shape of
the map. -/
theorem presence_round_trip (u : String) (c c2 : ConnectedUser) (r : Registry) :
    isUserConnected u (registrySet u c r) = true ∧
    isUserConnected u (registryDelete u r) = false ∧
    registryGet u (registrySet u c2 (registrySet u c r)) = some c2 ∧
    ((r.map Prod.fst).Nodup → ((registrySet u c r).map Prod.fst).Nodup) :=
  ⟨isUserConnected_set u c r, isUserConnected_delete u r,
    registryGet_set u c2 (registrySet u c r), keys_set_nodup u c r⟩

/-- Witness for the C9 theorem: registering u1 into a map holding only u2
keeps the keys without duplicates. -/
theorem presence_round_trip_witness :
    ((registrySet "u1" cuA [("u2", cuB)]).map Prod.fst).Nodup :=
  (presence_round_trip "u1" cuA cuA [("u2", cuB)]).2.2.2 (by decide)

/-- C10: a committed transfer leaves every account other than the source and
destination entirely unchanged, changes nothing but the balance on the
source and destination accounts themselves, and appends exactly one
transaction record. -/
theorem transfer_frame (s : Store) (user : Option String) (req : TransferRequest)
    (txId ref : String) (t : Transaction) (s' : Store) (ops : List StoreOp)
    (h : transferFundsController s user req txId ref =
      (TOutcome.created t, s', ops)) :
    List.Forall₂ (fun a b => b.id = a.id ∧ b.userId = a.userId ∧
      b.accountNumber = a.accountNumber ∧ b.defaultAccount = a.defaultAccount ∧
      (a.id ≠ t.fromAccountId → a.id ≠ t.toAccountId → b = a))
      s.accounts s'.accounts ∧
    s'.transactions = s.transactions ++ [t] := by
  cases user with
  | none =>
      simp only [transferFundsController, Prod.mk.injEq] at h
      simp at h
  | some uid =>
      simp only [transferFundsController] at h
      obtain ⟨fromA, toA, q, hfrom, hto, hne, hparse, hq, hle, ht, haccs, htx⟩ :=
        transferAuthed_created_inv s uid req txId ref t s' ops h
      subst ht
      refine ⟨?_, htx⟩
      rw [haccs]
      unfold applyTransfer
      rw [List.map_map]
      rw [List.forall₂_map_right_iff]
      rw [List.forall₂_same]
      intro a _
      by_cases h1 : a.id = fromA.id
      · by_cases h2 : a.id = toA.id
        · have h12 : fromA.id = toA.id := by rw [← h1, ← h2]
          refine ⟨by simp [h1, h12], by simp [h1, h12], by simp [h1, h12],
            by simp [h1, h12], ?_⟩
          intro hf _
          exact absurd h1 hf
        · have h12n : fromA.id ≠ toA.id := h1 ▸ h2
          refine ⟨by simp [h1, h12n], by simp [h1, h12n], by simp [h1, h12n],
            by simp [h1, h12n], ?_⟩
          intro hf _
          exact absurd h1 hf
      · by_cases h2 : a.id = toA.id
        · have h21n : toA.id ≠ fromA.id := h2 ▸ h1
          refine ⟨by simp [h2, h21n], by simp [h2, h21n], by simp [h2, h21n],
            by simp [h2, h21n], ?_⟩
          intro _ hto2
          exact absurd h2 hto2
        · exact ⟨by simp [h1, h2], by simp [h1, h2], by simp [h1, h2],
            by simp [h1, h2], fun _ _ => by simp [h1, h2]⟩

/-- Witness for the C10 theorem at a concrete committed transfer of 50 from
account a2 to account a1. -/
theorem transfer_frame_witness :
    ((transferFundsController sampleStore (some "u2")
        ⟨"a2", "1111111111", some "50", none⟩ "t9" "TRX-9").2.1).transactions =
      sampleStore.transactions ++ [⟨"t9", "TRX-9", "a2", "a1", 50, none⟩] :=
  (transfer_frame sampleStore (some "u2") ⟨"a2", "1111111111", some "50", none⟩
    "t9" "TRX-9" _ _ _ rfl).2

end Bank
